import Mathlib

/-
  A Lean embedding of the NoiseScheduler core of
  example_papers/grid_based_noise_adaptation/run_4.py: the DDPM coefficient
  table, the multi-scale noise-adjustment grids, the forward noising map
  add_noise and the reverse-transition step.  Per-timestep tensors become
  lists of reals, a batch element becomes a single 2D point, the fresh
  Gaussian sample drawn inside step (torch.randn_like) becomes an explicit
  argument, and float arithmetic becomes exact real arithmetic.
-/

noncomputable section

/-- The constructor arguments of NoiseScheduler. -/
structure DiffusionConfig where
  num_timesteps : Nat
  beta_start : Real
  beta_end : Real
  beta_schedule : String
  coarse_grid_size : Nat
  fine_grid_size : Nat

/-- One noise-adjustment grid: a (timesteps, rows, cols) tensor of
multiplicative factors, with its shape recorded. -/
structure NoiseGrid where
  timesteps : Nat
  rows : Nat
  cols : Nat
  val : Nat → Nat → Nat → Real

/-- torch.linspace a b n: n evenly spaced points from a to b.  For n = 1 the
divisor is zero, division by zero returns 0, and the single entry is a,
matching torch. -/
def linspace (a b : Real) (n : Nat) : List Real :=
  (List.range n).map (fun i : Nat => a + (b - a) * (i : Real) / ((n : Real) - 1))

/-- torch.cumprod along the only axis: entry i is the product of the first
i+1 entries. -/
def cumprod (l : List Real) : List Real :=
  (List.range l.length).map (fun i => (l.take (i + 1)).prod)

/-- Which branch of the beta-schedule dispatch in __init__ was taken. -/
inductive BetaSchedule where
  | linear : BetaSchedule
  | quadratic : BetaSchedule

/-- The state of a constructed NoiseScheduler: the coefficient tables and the
two learnable grids. -/
structure NoiseScheduler where
  num_timesteps : Nat
  coarse_grid_size : Nat
  fine_grid_size : Nat
  betas : List Real
  alphas : List Real
  alphas_cumprod : List Real
  alphas_cumprod_prev : List Real
  sqrt_alphas_cumprod : List Real
  sqrt_one_minus_alphas_cumprod : List Real
  sqrt_inv_alphas_cumprod : List Real
  sqrt_inv_alphas_cumprod_minus_one : List Real
  posterior_mean_coef1 : List Real
  posterior_mean_coef2 : List Real
  coarse_noise_grid : NoiseGrid
  fine_noise_grid : NoiseGrid

/-- NoiseScheduler.__init__ after the beta-schedule dispatch: betas by linear
interpolation (or by squaring a linear interpolation of square roots), then
alphas = 1 - betas, the cumulative products, the F.pad-prepended previous
cumulative products, every derived elementwise table, and the two all-ones
grids of shapes (T, coarse, coarse) and (T, fine, fine). -/
def mkScheduler (cfg : DiffusionConfig) (sched : BetaSchedule) : NoiseScheduler :=
  let T := cfg.num_timesteps
  let betas : List Real :=
    match sched with
    | BetaSchedule.linear => linspace cfg.beta_start cfg.beta_end T
    | BetaSchedule.quadratic =>
        (linspace (Real.sqrt cfg.beta_start) (Real.sqrt cfg.beta_end) T).map
          (fun x => x ^ 2)
  let alphas := betas.map (fun b => 1 - b)
  let acp := cumprod alphas
  let acp_prev := 1 :: acp.dropLast
  ⟨T, cfg.coarse_grid_size, cfg.fine_grid_size, betas, alphas, acp, acp_prev,
    acp.map Real.sqrt,
    acp.map (fun a => Real.sqrt (1 - a)),
    acp.map (fun a => Real.sqrt (1 / a)),
    acp.map (fun a => Real.sqrt (1 / a - 1)),
    (List.range T).map
      (fun t => betas.getD t 0 * Real.sqrt (acp_prev.getD t 0) /
        (1 - acp.getD t 0)),
    (List.range T).map
      (fun t => (1 - acp_prev.getD t 0) * Real.sqrt (alphas.getD t 0) /
        (1 - acp.getD t 0)),
    ⟨T, cfg.coarse_grid_size, cfg.coarse_grid_size, fun _ _ _ => 1⟩,
    ⟨T, cfg.fine_grid_size, cfg.fine_grid_size, fun _ _ _ => 1⟩⟩

/-- NoiseScheduler construction including the beta-schedule validation: an
unknown schedule name raises (ValueError in the source, the ConfigError of
the specification). -/
def buildScheduler (cfg : DiffusionConfig) : Except String NoiseScheduler :=
  if cfg.beta_schedule = "linear" then
    Except.ok (mkScheduler cfg BetaSchedule.linear)
  else if cfg.beta_schedule = "quadratic" then
    Except.ok (mkScheduler cfg BetaSchedule.quadratic)
  else
    Except.error ("Unknown beta schedule: " ++ cfg.beta_schedule)

/-- The cell-index computation of get_grid_noise_adjustment for one
coordinate: torch.clamp((c + 1) / 2 * size, 0, size - 1).long(), where
torch.clamp applies the lower bound first and .long() truncates (equal to
the floor on the clamped, nonnegative value). -/
def grid_index (size : Nat) (c : Real) : Int :=
  Int.floor (min (max ((c + 1) / 2 * size) 0) ((size : Real) - 1))

/-- NoiseScheduler.get_grid_noise_adjustment: look up the coarse grid and the
fine grid at the cell containing the point and multiply the two factors. -/
def get_grid_noise_adjustment (s : NoiseScheduler) (t : Nat) (x : Real × Real) :
    Real :=
  let coarse_grid_x := (grid_index s.coarse_grid_size x.1).toNat
  let coarse_grid_y := (grid_index s.coarse_grid_size x.2).toNat
  let coarse_adjustment := s.coarse_noise_grid.val t coarse_grid_x coarse_grid_y
  let fine_grid_x := (grid_index s.fine_grid_size x.1).toNat
  let fine_grid_y := (grid_index s.fine_grid_size x.2).toNat
  let fine_adjustment := s.fine_noise_grid.val t fine_grid_x fine_grid_y
  coarse_adjustment * fine_adjustment

/-- NoiseScheduler.reconstruct_x0. -/
def reconstruct_x0 (s : NoiseScheduler) (x_t : Real × Real) (t : Nat)
    (noise : Real × Real) : Real × Real :=
  let s1 := s.sqrt_inv_alphas_cumprod.getD t 0
  let s2 := s.sqrt_inv_alphas_cumprod_minus_one.getD t 0
  (s1 * x_t.1 - s2 * noise.1, s1 * x_t.2 - s2 * noise.2)

/-- NoiseScheduler.q_posterior. -/
def q_posterior (s : NoiseScheduler) (x_0 x_t : Real × Real) (t : Nat) :
    Real × Real :=
  let s1 := s.posterior_mean_coef1.getD t 0
  let s2 := s.posterior_mean_coef2.getD t 0
  (s1 * x_0.1 + s2 * x_t.1, s1 * x_0.2 + s2 * x_t.2)

/-- NoiseScheduler.get_variance: 0 at t = 0, otherwise the posterior variance
clipped from below at 1e-20 (Tensor.clip with a single lower bound). -/
def get_variance (s : NoiseScheduler) (t : Nat) : Real :=
  if t = 0 then 0
  else
    max (s.betas.getD t 0 * (1 - s.alphas_cumprod_prev.getD t 0) /
      (1 - s.alphas_cumprod.getD t 0)) 1e-20

/-- NoiseScheduler.step; z is the fresh standard-normal sample the source
draws with torch.randn_like when timestep > 0. -/
def step (s : NoiseScheduler) (model_output : Real × Real) (timestep : Nat)
    (sample : Real × Real) (z : Real × Real) : Real × Real :=
  let pred_original_sample := reconstruct_x0 s sample timestep model_output
  let pred_prev_sample := q_posterior s pred_original_sample sample timestep
  let variance : Real × Real :=
    if 0 < timestep then
      (Real.sqrt (get_variance s timestep) * z.1,
       Real.sqrt (get_variance s timestep) * z.2)
    else (0, 0)
  (pred_prev_sample.1 + variance.1, pred_prev_sample.2 + variance.2)

/-- NoiseScheduler.add_noise: the noise-adjustment factor is evaluated on the
clean sample x_start. -/
def add_noise (s : NoiseScheduler) (x_start x_noise : Real × Real)
    (timesteps : Nat) : Real × Real :=
  let s1 := s.sqrt_alphas_cumprod.getD timesteps 0
  let s2 := s.sqrt_one_minus_alphas_cumprod.getD timesteps 0
  let noise_adjustment := get_grid_noise_adjustment s timesteps x_start
  (s1 * x_start.1 + s2 * x_noise.1 * noise_adjustment,
   s1 * x_start.2 + s2 * x_noise.2 * noise_adjustment)

/-- The method call add_noise viewed as a state transformer: the Python body
contains no assignment to self, so the scheduler state it returns is the one
it received. -/
def add_noise_call (s : NoiseScheduler) (x_start x_noise : Real × Real)
    (timesteps : Nat) : (Real × Real) × NoiseScheduler :=
  (add_noise s x_start x_noise timesteps, s)

/-- The method call step viewed as a state transformer; no assignment to
self in the body. -/
def step_call (s : NoiseScheduler) (model_output : Real × Real)
    (timestep : Nat) (sample : Real × Real) (z : Real × Real) :
    (Real × Real) × NoiseScheduler :=
  (step s model_output timestep sample z, s)

/-- The method call get_grid_noise_adjustment viewed as a state transformer;
no assignment to self in the body. -/
def get_grid_noise_adjustment_call (s : NoiseScheduler) (t : Nat)
    (x : Real × Real) : Real × NoiseScheduler :=
  (get_grid_noise_adjustment s t x, s)

/-- The external gradient update: it replaces the contents of the two
learnable grids and touches nothing else of the scheduler state. -/
def setGrids (s : NoiseScheduler) (g1 g2 : NoiseGrid) : NoiseScheduler :=
  ⟨s.num_timesteps, s.coarse_grid_size, s.fine_grid_size, s.betas, s.alphas,
    s.alphas_cumprod, s.alphas_cumprod_prev, s.sqrt_alphas_cumprod,
    s.sqrt_one_minus_alphas_cumprod, s.sqrt_inv_alphas_cumprod,
    s.sqrt_inv_alphas_cumprod_minus_one, s.posterior_mean_coef1,
    s.posterior_mean_coef2, g1, g2⟩

/-- Claim C1: add_noise returns s1 * x0 + s2 * noise * a componentwise, where
s1 and s2 are the sqrt_alphas_cumprod and sqrt_one_minus_alphas_cumprod
entries at t and the adjustment factor a is evaluated on the clean sample
x0; the result is a function of the inputs and the grid contents alone. -/
theorem claim_C1 (s : NoiseScheduler) (x0 noise : Real × Real) (t : Nat) :
    add_noise s x0 noise t =
      (s.sqrt_alphas_cumprod.getD t 0 * x0.1 +
         s.sqrt_one_minus_alphas_cumprod.getD t 0 * noise.1 *
           get_grid_noise_adjustment s t x0,
       s.sqrt_alphas_cumprod.getD t 0 * x0.2 +
         s.sqrt_one_minus_alphas_cumprod.getD t 0 * noise.2 *
           get_grid_noise_adjustment s t x0) := rfl

/-- Claim C3: for t > 0 (written t + 1), step adds
sqrt(get_variance t) * z to the posterior mean of the reconstructed sample,
and at t = 0 it returns exactly the posterior mean. -/
theorem claim_C3 (s : NoiseScheduler) (model_output sample z : Real × Real)
    (t : Nat) :
    step s model_output (t + 1) sample z =
      ((q_posterior s (reconstruct_x0 s sample (t + 1) model_output) sample
          (t + 1)).1 + Real.sqrt (get_variance s (t + 1)) * z.1,
       (q_posterior s (reconstruct_x0 s sample (t + 1) model_output) sample
          (t + 1)).2 + Real.sqrt (get_variance s (t + 1)) * z.2) ∧
    step s model_output 0 sample z =
      q_posterior s (reconstruct_x0 s sample 0 model_output) sample 0 := by
  constructor
  · simp [step]
  · simp [step, q_posterior]

/-- Claim C4: get_variance is exactly 0 at t = 0, and at every t > 0
(written t + 1) it is the posterior variance formula floored at 1e-20, hence
at least 1e-20. -/
theorem claim_C4 (s : NoiseScheduler) (t : Nat) :
    get_variance s 0 = 0 ∧
    get_variance s (t + 1) =
      max (s.betas.getD (t + 1) 0 * (1 - s.alphas_cumprod_prev.getD (t + 1) 0) /
        (1 - s.alphas_cumprod.getD (t + 1) 0)) 1e-20 ∧
    (1e-20 : Real) ≤ get_variance s (t + 1) := by
  refine ⟨rfl, rfl, ?_⟩
  simp [get_variance]

/-- Claim C7 (amended): construction fails exactly when beta_schedule is
neither "linear" nor "quadratic"; positivity of the timestep count and of
the grid sizes is not validated. -/
theorem claim_C7 (cfg : DiffusionConfig) :
    (buildScheduler cfg).isOk = true ↔
      (cfg.beta_schedule = "linear" ∨ cfg.beta_schedule = "quadratic") := by
  unfold buildScheduler
  split_ifs with h1 h2
  · exact iff_of_true rfl (Or.inl h1)
  · exact iff_of_true rfl (Or.inr h2)
  · constructor
    · intro hh
      simp [Except.toBool] at hh
    · intro hh
      rcases hh with h | h
      · exact absurd h h1
      · exact absurd h h2

/-- Claim C7 counterexample: a configuration with num_timesteps = 0, which
the claim calls invalid, constructs without any error. -/
theorem claim_C7_counterexample :
    (buildScheduler ⟨0, 1 / 10000, 1 / 50, "linear", 5, 20⟩).isOk = true ∧
    (⟨0, 1 / 10000, 1 / 50, "linear", 5, 20⟩ : DiffusionConfig).num_timesteps
      = 0 :=
  ⟨rfl, rfl⟩

/-- Claim C8: the coarse grid of a constructed scheduler does not depend on
fine_grid_size, and whenever construction succeeds it is the all-ones grid
of shape (num_timesteps, coarse_grid_size, coarse_grid_size). -/
theorem claim_C8 (T : Nat) (bs be : Real) (sch : String) (cg a b : Nat) :
    (buildScheduler ⟨T, bs, be, sch, cg, a⟩).map
        (fun s => s.coarse_noise_grid) =
      (buildScheduler ⟨T, bs, be, sch, cg, b⟩).map
        (fun s => s.coarse_noise_grid) ∧
    (buildScheduler ⟨T, bs, be, sch, cg, a⟩).map
        (fun s => s.coarse_noise_grid) =
      (buildScheduler ⟨T, bs, be, sch, cg, a⟩).map
        (fun _ => (⟨T, cg, cg, fun _ _ _ => 1⟩ : NoiseGrid)) := by
  constructor
  · unfold buildScheduler
    split_ifs <;> rfl
  · unfold buildScheduler
    split_ifs <;> rfl

/-- Claim C9: the method calls add_noise, step and get_grid_noise_adjustment
leave the whole scheduler state, grids and coefficient tables included,
unchanged: their bodies only read it. -/
theorem claim_C9 (s : NoiseScheduler) (x0 noise model_output sample z xq :
    Real × Real) (t u : Nat) :
    (add_noise_call s x0 noise t).2 = s ∧
    (step_call s model_output t sample z).2 = s ∧
    (get_grid_noise_adjustment_call s u xq).2 = s :=
  ⟨rfl, rfl, rfl⟩

/-- Claim C10: step is invariant under any replacement of the two
noise-adjustment grids: its output depends only on the coefficient tables
and its arguments. -/
theorem claim_C10 (s : NoiseScheduler) (g1 g2 : NoiseGrid)
    (model_output sample z : Real × Real) (t : Nat) :
    step (setGrids s g1 g2) model_output t sample z =
      step s model_output t sample z := rfl

theorem floor_min_eq (a b : Real) :
    Int.floor (min a b) = min (Int.floor a) (Int.floor b) := by
  rcases le_total a b with h | h
  · rw [min_eq_left h, min_eq_left (Int.floor_le_floor h)]
  · rw [min_eq_right h, min_eq_right (Int.floor_le_floor h)]

theorem floor_max_eq (a b : Real) :
    Int.floor (max a b) = max (Int.floor a) (Int.floor b) := by
  rcases le_total a b with h | h
  · rw [max_eq_right h, max_eq_right (Int.floor_le_floor h)]
  · rw [max_eq_left h, max_eq_left (Int.floor_le_floor h)]

theorem size_sub_one_floor (size : Nat) :
    Int.floor ((size : Real) - 1) = (size : Int) - 1 := by
  have h : ((size : Real) - 1) = (((size : Int) - 1 : Int) : Real) := by
    push_cast
    ring
  rw [h, Int.floor_intCast]

/-- Claim C5: for positive gridSize the cell index equals
floor((c + 1) / 2 * gridSize) clamped to [0, gridSize - 1]; it is 0 at
c = -1, gridSize - 1 for any coordinate at least 1, and always lies within
[0, gridSize - 1], so no grid lookup is out of bounds. -/
theorem claim_C5 (size : Nat) (c cbig : Real) (hs : 0 < size)
    (hc : 1 ≤ cbig) :
    grid_index size c =
      min (max (Int.floor ((c + 1) / 2 * size)) 0) ((size : Int) - 1) ∧
    0 ≤ grid_index size c ∧ grid_index size c ≤ (size : Int) - 1 ∧
    grid_index size (-1) = 0 ∧
    grid_index size cbig = (size : Int) - 1 := by
  have hs1 : (1 : Nat) ≤ size := hs
  have hsr : (1 : Real) ≤ (size : Real) := by exact_mod_cast hs1
  have hs0 : (0 : Real) ≤ (size : Real) - 1 := by linarith
  have hmain : grid_index size c =
      min (max (Int.floor ((c + 1) / 2 * size)) 0) ((size : Int) - 1) := by
    rw [grid_index, floor_min_eq, floor_max_eq, Int.floor_zero,
      size_sub_one_floor]
  have hz : (0 : Int) ≤ (size : Int) - 1 := by
    have : (1 : Int) ≤ (size : Int) := by exact_mod_cast hs1
    omega
  refine ⟨hmain, ?_, ?_, ?_, ?_⟩
  · rw [hmain]
    exact le_min (le_max_right _ _) hz
  · rw [hmain]
    exact min_le_right _ _
  · have hv : ((-1 : Real) + 1) / 2 * size = 0 := by norm_num
    rw [grid_index, hv, max_self, min_eq_left hs0, Int.floor_zero]
  · have hv : (size : Real) ≤ (cbig + 1) / 2 * size := by
      have h1 : (1 : Real) ≤ (cbig + 1) / 2 := by linarith
      have h2 : (1 : Real) * size ≤ (cbig + 1) / 2 * size := by
        apply mul_le_mul_of_nonneg_right h1
        positivity
      linarith
    have hmax : max ((cbig + 1) / 2 * size) 0 = (cbig + 1) / 2 * size := by
      apply max_eq_left
      linarith
    have hmin : min ((cbig + 1) / 2 * size) ((size : Real) - 1) =
        (size : Real) - 1 := by
      apply min_eq_right
      linarith
    rw [grid_index, hmax, hmin, size_sub_one_floor]

/-- Witness for claim C5 at gridSize 5 with coordinates 1/2 and 2. -/
theorem claim_C5_witness :
    (0 : Nat) < 5 ∧ (1 : Real) ≤ 2 ∧
    (grid_index 5 (1 / 2) =
      min (max (Int.floor (((1 : Real) / 2 + 1) / 2 * ((5 : Nat) : Real))) 0)
        ((5 : Int) - 1) ∧
    0 ≤ grid_index 5 (1 / 2) ∧ grid_index 5 (1 / 2) ≤ (5 : Int) - 1 ∧
    grid_index 5 (-1) = 0 ∧
    grid_index 5 2 = (5 : Int) - 1) :=
  ⟨by norm_num, by norm_num,
    claim_C5 5 (1 / 2) 2 (by norm_num) (by norm_num)⟩

theorem range_map_getD (f : Nat → Real) (n i : Nat) (h : i < n) :
    ((List.range n).map f).getD i 0 = f i := by
  have hl : i < ((List.range n).map f).length := by simpa using h
  rw [List.getD_eq_getElem _ _ hl, List.getElem_map, List.getElem_range]

theorem map_getD (f : Real → Real) (l : List Real) (i : Nat)
    (h : i < l.length) :
    (l.map f).getD i 0 = f (l.getD i 0) := by
  have hl : i < (l.map f).length := by simpa using h
  rw [List.getD_eq_getElem _ _ hl, List.getElem_map,
    List.getD_eq_getElem _ _ h]

theorem linspace_length (a b : Real) (n : Nat) : (linspace a b n).length = n := by
  simp [linspace]

theorem linspace_mem (a b : Real) (n : Nat) (hab : a ≤ b) :
    ∀ x ∈ linspace a b n, a ≤ x ∧ x ≤ b := by
  intro x hx
  rw [linspace, List.mem_map] at hx
  obtain ⟨i, hi, rfl⟩ := hx
  rw [List.mem_range] at hi
  have hba : (0 : Real) ≤ b - a := by linarith
  by_cases h1 : n = 1
  · subst h1
    have hi0 : i = 0 := by omega
    subst hi0
    norm_num
    exact hab
  · have hn2 : 2 ≤ n := by omega
    have hd : (0 : Real) < (n : Real) - 1 := by
      have : (2 : Real) ≤ (n : Real) := by exact_mod_cast hn2
      linarith
    have hin : (i : Real) ≤ (n : Real) - 1 := by
      have : (i : Real) + 1 ≤ (n : Real) := by exact_mod_cast hi
      linarith
    constructor
    · have : 0 ≤ (b - a) * i / ((n : Real) - 1) :=
        div_nonneg (mul_nonneg hba (by positivity)) hd.le
      linarith
    · have : (b - a) * i / ((n : Real) - 1) ≤ b - a := by
        rw [div_le_iff₀ hd]
        calc (b - a) * i ≤ (b - a) * ((n : Real) - 1) :=
          mul_le_mul_of_nonneg_left hin hba
        _ = (b - a) * ((n : Real) - 1) := rfl
      linarith

theorem cumprod_length (l : List Real) : (cumprod l).length = l.length := by
  simp [cumprod]

theorem cumprod_getD (l : List Real) (i : Nat) (h : i < l.length) :
    (cumprod l).getD i 0 = (l.take (i + 1)).prod :=
  range_map_getD _ _ _ h

theorem list_prod_pos_le_one (l : List Real) (h : ∀ x ∈ l, 0 < x ∧ x ≤ 1) :
    0 < l.prod ∧ l.prod ≤ 1 := by
  induction l with
  | nil => simp
  | cons a l ih =>
    have ha := h a (List.mem_cons_self a l)
    have hl := ih (fun x hx => h x (List.mem_cons_of_mem a hx))
    rw [List.prod_cons]
    exact ⟨mul_pos ha.1 hl.1, mul_le_one₀ ha.2 hl.1.le hl.2⟩

theorem mkScheduler_betas_linear (cfg : DiffusionConfig) :
    (mkScheduler cfg BetaSchedule.linear).betas =
      linspace cfg.beta_start cfg.beta_end cfg.num_timesteps := rfl

theorem mkScheduler_betas_quadratic (cfg : DiffusionConfig) :
    (mkScheduler cfg BetaSchedule.quadratic).betas =
      (linspace (Real.sqrt cfg.beta_start) (Real.sqrt cfg.beta_end)
        cfg.num_timesteps).map (fun x => x ^ 2) := rfl

theorem mkScheduler_alphas (cfg : DiffusionConfig) (sched : BetaSchedule) :
    (mkScheduler cfg sched).alphas =
      (mkScheduler cfg sched).betas.map (fun b => 1 - b) := by
  cases sched <;> rfl

theorem mkScheduler_acp (cfg : DiffusionConfig) (sched : BetaSchedule) :
    (mkScheduler cfg sched).alphas_cumprod =
      cumprod (mkScheduler cfg sched).alphas := by
  cases sched <;> rfl

theorem mkScheduler_acp_prev (cfg : DiffusionConfig) (sched : BetaSchedule) :
    (mkScheduler cfg sched).alphas_cumprod_prev =
      1 :: (mkScheduler cfg sched).alphas_cumprod.dropLast := by
  cases sched <;> rfl

theorem mkScheduler_sqrt_acp (cfg : DiffusionConfig) (sched : BetaSchedule) :
    (mkScheduler cfg sched).sqrt_alphas_cumprod =
      (mkScheduler cfg sched).alphas_cumprod.map Real.sqrt := by
  cases sched <;> rfl

theorem mkScheduler_sqrt_one_minus (cfg : DiffusionConfig)
    (sched : BetaSchedule) :
    (mkScheduler cfg sched).sqrt_one_minus_alphas_cumprod =
      (mkScheduler cfg sched).alphas_cumprod.map
        (fun a => Real.sqrt (1 - a)) := by
  cases sched <;> rfl

theorem mkScheduler_sqrt_inv (cfg : DiffusionConfig) (sched : BetaSchedule) :
    (mkScheduler cfg sched).sqrt_inv_alphas_cumprod =
      (mkScheduler cfg sched).alphas_cumprod.map
        (fun a => Real.sqrt (1 / a)) := by
  cases sched <;> rfl

theorem mkScheduler_sqrt_inv_minus_one (cfg : DiffusionConfig)
    (sched : BetaSchedule) :
    (mkScheduler cfg sched).sqrt_inv_alphas_cumprod_minus_one =
      (mkScheduler cfg sched).alphas_cumprod.map
        (fun a => Real.sqrt (1 / a - 1)) := by
  cases sched <;> rfl

theorem mkScheduler_betas_length (cfg : DiffusionConfig)
    (sched : BetaSchedule) :
    (mkScheduler cfg sched).betas.length = cfg.num_timesteps := by
  cases sched
  · rw [mkScheduler_betas_linear, linspace_length]
  · rw [mkScheduler_betas_quadratic, List.length_map, linspace_length]

theorem mkScheduler_alphas_length (cfg : DiffusionConfig)
    (sched : BetaSchedule) :
    (mkScheduler cfg sched).alphas.length = cfg.num_timesteps := by
  rw [mkScheduler_alphas, List.length_map, mkScheduler_betas_length]

theorem mkScheduler_acp_length (cfg : DiffusionConfig) (sched : BetaSchedule) :
    (mkScheduler cfg sched).alphas_cumprod.length = cfg.num_timesteps := by
  rw [mkScheduler_acp, cumprod_length, mkScheduler_alphas_length]

theorem mkScheduler_betas_mem (cfg : DiffusionConfig) (sched : BetaSchedule)
    (h2 : 0 < cfg.beta_start) (h3 : cfg.beta_start < cfg.beta_end)
    (h4 : cfg.beta_end < 1) :
    ∀ x ∈ (mkScheduler cfg sched).betas, 0 < x ∧ x < 1 := by
  cases sched
  · rw [mkScheduler_betas_linear]
    intro x hx
    have hm := linspace_mem _ _ _ h3.le x hx
    exact ⟨lt_of_lt_of_le h2 hm.1, lt_of_le_of_lt hm.2 h4⟩
  · rw [mkScheduler_betas_quadratic]
    intro x hx
    rw [List.mem_map] at hx
    obtain ⟨e, he, rfl⟩ := hx
    have hm := linspace_mem _ _ _ (Real.sqrt_le_sqrt h3.le) e he
    have h0e : 0 ≤ e := le_trans (Real.sqrt_nonneg _) hm.1
    constructor
    · calc (0 : Real) < cfg.beta_start := h2
        _ = Real.sqrt cfg.beta_start ^ 2 := (Real.sq_sqrt h2.le).symm
        _ ≤ e ^ 2 := pow_le_pow_left₀ (Real.sqrt_nonneg _) hm.1 2
    · calc e ^ 2 ≤ Real.sqrt cfg.beta_end ^ 2 :=
          pow_le_pow_left₀ h0e hm.2 2
        _ = cfg.beta_end := Real.sq_sqrt (by linarith)
        _ < 1 := h4

theorem mkScheduler_alphas_mem (cfg : DiffusionConfig) (sched : BetaSchedule)
    (h2 : 0 < cfg.beta_start) (h3 : cfg.beta_start < cfg.beta_end)
    (h4 : cfg.beta_end < 1) :
    ∀ x ∈ (mkScheduler cfg sched).alphas, 0 < x ∧ x < 1 := by
  rw [mkScheduler_alphas]
  intro x hx
  rw [List.mem_map] at hx
  obtain ⟨b, hb, rfl⟩ := hx
  have hm := mkScheduler_betas_mem cfg sched h2 h3 h4 b hb
  exact ⟨by linarith [hm.2], by linarith [hm.1]⟩

theorem mkScheduler_acp_getD_mem (cfg : DiffusionConfig) (sched : BetaSchedule)
    (i : Nat) (h2 : 0 < cfg.beta_start) (h3 : cfg.beta_start < cfg.beta_end)
    (h4 : cfg.beta_end < 1) (hi : i < cfg.num_timesteps) :
    0 < (mkScheduler cfg sched).alphas_cumprod.getD i 0 ∧
      (mkScheduler cfg sched).alphas_cumprod.getD i 0 ≤ 1 := by
  rw [mkScheduler_acp, cumprod_getD _ _
    (by rw [mkScheduler_alphas_length]; exact hi)]
  apply list_prod_pos_le_one
  intro x hx
  have hm := mkScheduler_alphas_mem cfg sched h2 h3 h4 x
    (List.take_subset _ _ hx)
  exact ⟨hm.1, hm.2.le⟩

theorem mkScheduler_acp_antitone (cfg : DiffusionConfig) (sched : BetaSchedule)
    (i j : Nat) (h2 : 0 < cfg.beta_start) (h3 : cfg.beta_start < cfg.beta_end)
    (h4 : cfg.beta_end < 1) (hij : i ≤ j) (hj : j < cfg.num_timesteps) :
    (mkScheduler cfg sched).alphas_cumprod.getD j 0 ≤
      (mkScheduler cfg sched).alphas_cumprod.getD i 0 := by
  have hi : i < cfg.num_timesteps := lt_of_le_of_lt hij hj
  have hlen : (mkScheduler cfg sched).alphas.length = cfg.num_timesteps :=
    mkScheduler_alphas_length cfg sched
  rw [mkScheduler_acp, cumprod_getD _ _ (by rw [hlen]; exact hj),
    cumprod_getD _ _ (by rw [hlen]; exact hi)]
  have hsplit : (mkScheduler cfg sched).alphas.take (j + 1) =
      (mkScheduler cfg sched).alphas.take (i + 1) ++
        ((mkScheduler cfg sched).alphas.drop (i + 1)).take (j - i) := by
    rw [← List.take_add]
    congr 1
    omega
  rw [hsplit, List.prod_append]
  have hone := list_prod_pos_le_one
    ((mkScheduler cfg sched).alphas.take (i + 1))
    (fun x hx => by
      have hm := mkScheduler_alphas_mem cfg sched h2 h3 h4 x
        (List.take_subset _ _ hx)
      exact ⟨hm.1, hm.2.le⟩)
  have htwo := list_prod_pos_le_one
    (((mkScheduler cfg sched).alphas.drop (i + 1)).take (j - i))
    (fun x hx => by
      have hm := mkScheduler_alphas_mem cfg sched h2 h3 h4 x
        (List.drop_subset _ _ (List.take_subset _ _ hx))
      exact ⟨hm.1, hm.2.le⟩)
  calc ((mkScheduler cfg sched).alphas.take (i + 1)).prod *
        (((mkScheduler cfg sched).alphas.drop (i + 1)).take (j - i)).prod
      ≤ ((mkScheduler cfg sched).alphas.take (i + 1)).prod * 1 :=
        mul_le_mul_of_nonneg_left htwo.2 hone.1.le
    _ = ((mkScheduler cfg sched).alphas.take (i + 1)).prod := mul_one _

theorem mkScheduler_acp_prev_length (cfg : DiffusionConfig)
    (sched : BetaSchedule) (h1 : 0 < cfg.num_timesteps) :
    (mkScheduler cfg sched).alphas_cumprod_prev.length = cfg.num_timesteps := by
  rw [mkScheduler_acp_prev, List.length_cons, List.length_dropLast,
    mkScheduler_acp_length]
  omega

theorem mkScheduler_sqrt_acp_length (cfg : DiffusionConfig)
    (sched : BetaSchedule) :
    (mkScheduler cfg sched).sqrt_alphas_cumprod.length = cfg.num_timesteps := by
  rw [mkScheduler_sqrt_acp, List.length_map, mkScheduler_acp_length]

theorem mkScheduler_sqrt_one_minus_length (cfg : DiffusionConfig)
    (sched : BetaSchedule) :
    (mkScheduler cfg sched).sqrt_one_minus_alphas_cumprod.length =
      cfg.num_timesteps := by
  rw [mkScheduler_sqrt_one_minus, List.length_map, mkScheduler_acp_length]

theorem mkScheduler_sqrt_inv_length (cfg : DiffusionConfig)
    (sched : BetaSchedule) :
    (mkScheduler cfg sched).sqrt_inv_alphas_cumprod.length =
      cfg.num_timesteps := by
  rw [mkScheduler_sqrt_inv, List.length_map, mkScheduler_acp_length]

theorem mkScheduler_sqrt_inv_minus_one_length (cfg : DiffusionConfig)
    (sched : BetaSchedule) :
    (mkScheduler cfg sched).sqrt_inv_alphas_cumprod_minus_one.length =
      cfg.num_timesteps := by
  rw [mkScheduler_sqrt_inv_minus_one, List.length_map, mkScheduler_acp_length]

theorem mkScheduler_pmc1_length (cfg : DiffusionConfig) (sched : BetaSchedule) :
    (mkScheduler cfg sched).posterior_mean_coef1.length = cfg.num_timesteps := by
  cases sched <;> simp [mkScheduler]

theorem mkScheduler_pmc2_length (cfg : DiffusionConfig) (sched : BetaSchedule) :
    (mkScheduler cfg sched).posterior_mean_coef2.length = cfg.num_timesteps := by
  cases sched <;> simp [mkScheduler]

theorem mkScheduler_acp_prev_head (cfg : DiffusionConfig)
    (sched : BetaSchedule) :
    (mkScheduler cfg sched).alphas_cumprod_prev.getD 0 0 = 1 := by
  rw [mkScheduler_acp_prev]
  rfl

/-- Claim C6: for a valid config every coefficient table has length exactly
num_timesteps, the alpha cumulative product is non-increasing with every
entry in (0, 1], and the previous cumulative product starts at 1.  The
non-increasing and range statements are over arbitrary in-range indices
i ≤ j < T. -/
theorem claim_C6 (cfg : DiffusionConfig) (sched : BetaSchedule) (i j : Nat)
    (h1 : 0 < cfg.num_timesteps) (h2 : 0 < cfg.beta_start)
    (h3 : cfg.beta_start < cfg.beta_end) (h4 : cfg.beta_end < 1)
    (hij : i ≤ j) (hj : j < cfg.num_timesteps) :
    (mkScheduler cfg sched).betas.length = cfg.num_timesteps ∧
    (mkScheduler cfg sched).alphas.length = cfg.num_timesteps ∧
    (mkScheduler cfg sched).alphas_cumprod.length = cfg.num_timesteps ∧
    (mkScheduler cfg sched).alphas_cumprod_prev.length = cfg.num_timesteps ∧
    (mkScheduler cfg sched).sqrt_alphas_cumprod.length = cfg.num_timesteps ∧
    (mkScheduler cfg sched).sqrt_one_minus_alphas_cumprod.length =
      cfg.num_timesteps ∧
    (mkScheduler cfg sched).sqrt_inv_alphas_cumprod.length =
      cfg.num_timesteps ∧
    (mkScheduler cfg sched).sqrt_inv_alphas_cumprod_minus_one.length =
      cfg.num_timesteps ∧
    (mkScheduler cfg sched).posterior_mean_coef1.length = cfg.num_timesteps ∧
    (mkScheduler cfg sched).posterior_mean_coef2.length = cfg.num_timesteps ∧
    (mkScheduler cfg sched).alphas_cumprod.getD j 0 ≤
      (mkScheduler cfg sched).alphas_cumprod.getD i 0 ∧
    (0 < (mkScheduler cfg sched).alphas_cumprod.getD i 0 ∧
      (mkScheduler cfg sched).alphas_cumprod.getD i 0 ≤ 1) ∧
    (0 < (mkScheduler cfg sched).alphas_cumprod.getD j 0 ∧
      (mkScheduler cfg sched).alphas_cumprod.getD j 0 ≤ 1) ∧
    (mkScheduler cfg sched).alphas_cumprod_prev.getD 0 0 = 1 := by
  have hi : i < cfg.num_timesteps := lt_of_le_of_lt hij hj
  exact ⟨mkScheduler_betas_length cfg sched,
    mkScheduler_alphas_length cfg sched,
    mkScheduler_acp_length cfg sched,
    mkScheduler_acp_prev_length cfg sched h1,
    mkScheduler_sqrt_acp_length cfg sched,
    mkScheduler_sqrt_one_minus_length cfg sched,
    mkScheduler_sqrt_inv_length cfg sched,
    mkScheduler_sqrt_inv_minus_one_length cfg sched,
    mkScheduler_pmc1_length cfg sched,
    mkScheduler_pmc2_length cfg sched,
    mkScheduler_acp_antitone cfg sched i j h2 h3 h4 hij hj,
    mkScheduler_acp_getD_mem cfg sched i h2 h3 h4 hi,
    mkScheduler_acp_getD_mem cfg sched j h2 h3 h4 hj,
    mkScheduler_acp_prev_head cfg sched⟩

/-- Witness for claim C6: the linear schedule with T = 2, beta_start = 1/10,
beta_end = 1/5, i = 0, j = 1. -/
theorem claim_C6_witness :
    (0 : Nat) < 2 ∧ (0 : Real) < 1 / 10 ∧ (1 : Real) / 10 < 1 / 5 ∧
    (1 : Real) / 5 < 1 ∧ (0 : Nat) ≤ 1 ∧ (1 : Nat) < 2 ∧
    ((mkScheduler ⟨2, 1 / 10, 1 / 5, "linear", 5, 20⟩
        BetaSchedule.linear).betas.length = 2 ∧
    (mkScheduler ⟨2, 1 / 10, 1 / 5, "linear", 5, 20⟩
        BetaSchedule.linear).alphas.length = 2 ∧
    (mkScheduler ⟨2, 1 / 10, 1 / 5, "linear", 5, 20⟩
        BetaSchedule.linear).alphas_cumprod.length = 2 ∧
    (mkScheduler ⟨2, 1 / 10, 1 / 5, "linear", 5, 20⟩
        BetaSchedule.linear).alphas_cumprod_prev.length = 2 ∧
    (mkScheduler ⟨2, 1 / 10, 1 / 5, "linear", 5, 20⟩
        BetaSchedule.linear).sqrt_alphas_cumprod.length = 2 ∧
    (mkScheduler ⟨2, 1 / 10, 1 / 5, "linear", 5, 20⟩
        BetaSchedule.linear).sqrt_one_minus_alphas_cumprod.length = 2 ∧
    (mkScheduler ⟨2, 1 / 10, 1 / 5, "linear", 5, 20⟩
        BetaSchedule.linear).sqrt_inv_alphas_cumprod.length = 2 ∧
    (mkScheduler ⟨2, 1 / 10, 1 / 5, "linear", 5, 20⟩
        BetaSchedule.linear).sqrt_inv_alphas_cumprod_minus_one.length = 2 ∧
    (mkScheduler ⟨2, 1 / 10, 1 / 5, "linear", 5, 20⟩
        BetaSchedule.linear).posterior_mean_coef1.length = 2 ∧
    (mkScheduler ⟨2, 1 / 10, 1 / 5, "linear", 5, 20⟩
        BetaSchedule.linear).posterior_mean_coef2.length = 2 ∧
    (mkScheduler ⟨2, 1 / 10, 1 / 5, "linear", 5, 20⟩
        BetaSchedule.linear).alphas_cumprod.getD 1 0 ≤
      (mkScheduler ⟨2, 1 / 10, 1 / 5, "linear", 5, 20⟩
        BetaSchedule.linear).alphas_cumprod.getD 0 0 ∧
    (0 < (mkScheduler ⟨2, 1 / 10, 1 / 5, "linear", 5, 20⟩
        BetaSchedule.linear).alphas_cumprod.getD 0 0 ∧
      (mkScheduler ⟨2, 1 / 10, 1 / 5, "linear", 5, 20⟩
        BetaSchedule.linear).alphas_cumprod.getD 0 0 ≤ 1) ∧
    (0 < (mkScheduler ⟨2, 1 / 10, 1 / 5, "linear", 5, 20⟩
        BetaSchedule.linear).alphas_cumprod.getD 1 0 ∧
      (mkScheduler ⟨2, 1 / 10, 1 / 5, "linear", 5, 20⟩
        BetaSchedule.linear).alphas_cumprod.getD 1 0 ≤ 1) ∧
    (mkScheduler ⟨2, 1 / 10, 1 / 5, "linear", 5, 20⟩
        BetaSchedule.linear).alphas_cumprod_prev.getD 0 0 = 1) :=
  ⟨by norm_num, by norm_num, by norm_num, by norm_num, by norm_num,
    by norm_num,
    claim_C6 ⟨2, 1 / 10, 1 / 5, "linear", 5, 20⟩ BetaSchedule.linear 0 1
      (by norm_num) (by norm_num) (by norm_num) (by norm_num) (by norm_num)
      (by norm_num)⟩

theorem mkScheduler_sqrt_acp_getD (cfg : DiffusionConfig)
    (sched : BetaSchedule) (t : Nat) (ht : t < cfg.num_timesteps) :
    (mkScheduler cfg sched).sqrt_alphas_cumprod.getD t 0 =
      Real.sqrt ((mkScheduler cfg sched).alphas_cumprod.getD t 0) := by
  rw [mkScheduler_sqrt_acp]
  exact map_getD _ _ _ (by rw [mkScheduler_acp_length]; exact ht)

theorem mkScheduler_sqrt_one_minus_getD (cfg : DiffusionConfig)
    (sched : BetaSchedule) (t : Nat) (ht : t < cfg.num_timesteps) :
    (mkScheduler cfg sched).sqrt_one_minus_alphas_cumprod.getD t 0 =
      Real.sqrt (1 - (mkScheduler cfg sched).alphas_cumprod.getD t 0) := by
  rw [mkScheduler_sqrt_one_minus]
  exact map_getD _ _ _ (by rw [mkScheduler_acp_length]; exact ht)

theorem mkScheduler_sqrt_inv_getD (cfg : DiffusionConfig)
    (sched : BetaSchedule) (t : Nat) (ht : t < cfg.num_timesteps) :
    (mkScheduler cfg sched).sqrt_inv_alphas_cumprod.getD t 0 =
      Real.sqrt (1 / (mkScheduler cfg sched).alphas_cumprod.getD t 0) := by
  rw [mkScheduler_sqrt_inv]
  exact map_getD _ _ _ (by rw [mkScheduler_acp_length]; exact ht)

theorem mkScheduler_sqrt_inv_minus_one_getD (cfg : DiffusionConfig)
    (sched : BetaSchedule) (t : Nat) (ht : t < cfg.num_timesteps) :
    (mkScheduler cfg sched).sqrt_inv_alphas_cumprod_minus_one.getD t 0 =
      Real.sqrt (1 / (mkScheduler cfg sched).alphas_cumprod.getD t 0 - 1) := by
  rw [mkScheduler_sqrt_inv_minus_one]
  exact map_getD _ _ _ (by rw [mkScheduler_acp_length]; exact ht)

theorem mkScheduler_adjustment_one (cfg : DiffusionConfig)
    (sched : BetaSchedule) (t : Nat) (x : Real × Real) :
    get_grid_noise_adjustment (mkScheduler cfg sched) t x = 1 := by
  cases sched <;> exact mul_one 1

/-- Claim C2: on a freshly constructed scheduler (grids in their all-ones
state) the adjustment factor is 1 for every timestep and point, and
reconstruct_x0 applied to add_noise with the true noise recovers the clean
sample exactly, for every in-range timestep and valid config. -/
theorem claim_C2 (cfg : DiffusionConfig) (sched : BetaSchedule)
    (x0 noise xq : Real × Real) (t tq : Nat) (h2 : 0 < cfg.beta_start)
    (h3 : cfg.beta_start < cfg.beta_end) (h4 : cfg.beta_end < 1)
    (ht : t < cfg.num_timesteps) :
    reconstruct_x0 (mkScheduler cfg sched)
        (add_noise (mkScheduler cfg sched) x0 noise t) t noise = x0 ∧
    get_grid_noise_adjustment (mkScheduler cfg sched) tq xq = 1 := by
  refine ⟨?_, mkScheduler_adjustment_one cfg sched tq xq⟩
  obtain ⟨xa, xb⟩ := x0
  obtain ⟨na, nb⟩ := noise
  have hp := mkScheduler_acp_getD_mem cfg sched t h2 h3 h4 ht
  have hp0 : 0 < (mkScheduler cfg sched).alphas_cumprod.getD t 0 := hp.1
  have hne : (mkScheduler cfg sched).alphas_cumprod.getD t 0 ≠ 0 :=
    ne_of_gt hp0
  have e1 : Real.sqrt (1 / (mkScheduler cfg sched).alphas_cumprod.getD t 0) *
      Real.sqrt ((mkScheduler cfg sched).alphas_cumprod.getD t 0) = 1 := by
    rw [← Real.sqrt_mul (by positivity) _,
      one_div_mul_cancel (ne_of_gt hp0), Real.sqrt_one]
  have e2 : Real.sqrt (1 / (mkScheduler cfg sched).alphas_cumprod.getD t 0) *
      Real.sqrt (1 - (mkScheduler cfg sched).alphas_cumprod.getD t 0) =
      Real.sqrt (1 / (mkScheduler cfg sched).alphas_cumprod.getD t 0 - 1) := by
    rw [← Real.sqrt_mul (by positivity) _]
    congr 1
    rw [mul_sub, mul_one, one_div_mul_cancel hne]
  simp only [reconstruct_x0, add_noise, mkScheduler_adjustment_one,
    mkScheduler_sqrt_acp_getD cfg sched t ht,
    mkScheduler_sqrt_one_minus_getD cfg sched t ht,
    mkScheduler_sqrt_inv_getD cfg sched t ht,
    mkScheduler_sqrt_inv_minus_one_getD cfg sched t ht, Prod.mk.injEq]
  constructor
  · linear_combination xa * e1 + na * e2
  · linear_combination xb * e1 + nb * e2

/-- Witness for claim C2: linear schedule, T = 2, beta_start = 1/10,
beta_end = 1/5, clean sample (1/3, -1/2), noise (1, 1), timestep 1. -/
theorem claim_C2_witness :
    (0 : Real) < 1 / 10 ∧ (1 : Real) / 10 < 1 / 5 ∧ (1 : Real) / 5 < 1 ∧
    (1 : Nat) < 2 ∧
    (reconstruct_x0
        (mkScheduler ⟨2, 1 / 10, 1 / 5, "linear", 5, 20⟩ BetaSchedule.linear)
        (add_noise
          (mkScheduler ⟨2, 1 / 10, 1 / 5, "linear", 5, 20⟩ BetaSchedule.linear)
          (1 / 3, -(1 / 2)) (1, 1) 1) 1 (1, 1) = (1 / 3, -(1 / 2)) ∧
     get_grid_noise_adjustment
        (mkScheduler ⟨2, 1 / 10, 1 / 5, "linear", 5, 20⟩ BetaSchedule.linear)
        0 (0, 0) = 1) :=
  ⟨by norm_num, by norm_num, by norm_num, by norm_num,
    claim_C2 ⟨2, 1 / 10, 1 / 5, "linear", 5, 20⟩ BetaSchedule.linear
      (1 / 3, -(1 / 2)) (1, 1) (0, 0) 1 0 (by norm_num) (by norm_num)
      (by norm_num) (by norm_num)⟩
